import Mathlib

/-!
Shallow embedding of the VISOR video-processing pipeline
(`backend/app/services/video_processor.py`, `backend/app/api/process.py`)
and proofs about its tracker, sampling, enrichment, and job-lifecycle logic.

Numeric values (box coordinates, fps, progress) are embedded as rationals;
Python's float arithmetic on these code paths is plain arithmetic on exact
values, and `int(...)` / `round(...)` are modelled explicitly below.
Fallible calls are embedded as `Except String`.
-/

/-- Axis-aligned bounding box, pixel space: `{x, y, width, height}`. -/
structure BBox where
  x : ℚ
  y : ℚ
  width : ℚ
  height : ℚ
  deriving DecidableEq, Repr

/-- A detection produced by the Detector collaborator:
bbox, open-vocabulary label, confidence. -/
structure Detection where
  bbox : BBox
  label : String
  confidence : ℚ
  deriving DecidableEq, Repr

/-- Embeds `VideoProcessor._calculate_iou`: standard axis-aligned IoU, 0 when the
boxes do not overlap, and 0 when the union area is not positive. -/
def calculateIoU (box1 box2 : BBox) : ℚ :=
  let x1_min := box1.x
  let y1_min := box1.y
  let x1_max := x1_min + box1.width
  let y1_max := y1_min + box1.height
  let x2_min := box2.x
  let y2_min := box2.y
  let x2_max := x2_min + box2.width
  let y2_max := y2_min + box2.height
  let inter_x_min := max x1_min x2_min
  let inter_y_min := max y1_min y2_min
  let inter_x_max := min x1_max x2_max
  let inter_y_max := min y1_max y2_max
  if inter_x_max < inter_x_min ∨ inter_y_max < inter_y_min then 0
  else
    let inter_area := (inter_x_max - inter_x_min) * (inter_y_max - inter_y_min)
    let box1_area := box1.width * box1.height
    let box2_area := box2.width * box2.height
    let union_area := box1_area + box2_area - inter_area
    if 0 < union_area then inter_area / union_area else 0

/-- The intersection area term of `_calculate_iou` (meaningful on the
overlap branch). -/
def interAreaQ (a b : BBox) : ℚ :=
  (min (a.x + a.width) (b.x + b.width) - max a.x b.x) *
    (min (a.y + a.height) (b.y + b.height) - max a.y b.y)

/-- The union area term `box1_area + box2_area - inter_area` of
`_calculate_iou`. -/
def unionAreaQ (a b : BBox) : ℚ :=
  a.width * a.height + b.width * b.height - interAreaQ a b

/-! ## Tracker: `VideoProcessor._assign_track_ids` -/

/-- A detection together with its assigned `track_id` (the dicts that
`_assign_track_ids` returns, and the `previous_detections` it consumes). -/
structure TrackedDet where
  det : Detection
  track_id : ℕ
  deriving DecidableEq, Repr

/-- IoU between a current detection and a previous tracked detection
(`self._calculate_iou(curr_det['bbox'], prev_det['bbox'])`). -/
def iouOf (c : Detection) (p : TrackedDet) : ℚ :=
  calculateIoU c.bbox p.det.bbox

/-- One step of the inner candidate loop of `_assign_track_ids`:
`if iou > best_iou: best_iou = iou; best_match = prev_det`. -/
def trackStep (c : Detection) (acc : ℚ × Option TrackedDet) (p : TrackedDet) :
    ℚ × Option TrackedDet :=
  if acc.1 < iouOf c p then (iouOf c p, some p) else acc

/-- The inner loop of `_assign_track_ids` for one current detection:
starting from `best_iou = 0.3, best_match = None`, iterate over
`previous_detections`, skipping previous tracks already `matched` in this
call and those with a different label. -/
def findBestMatch (c : Detection) (previous : List TrackedDet) (matched : List ℕ) :
    ℚ × Option TrackedDet :=
  previous.foldl
    (fun acc p =>
      if p.track_id ∈ matched then acc
      else if c.label ≠ p.det.label then acc
      else trackStep c acc p)
    (3 / 10, none)

/-- First branch of `_assign_track_ids` (empty `previous_detections`):
assign `next_track_id, next_track_id + 1, …` in input order. -/
def assignNewIds : List Detection → ℕ → List TrackedDet × ℕ
  | [], nid => ([], nid)
  | d :: rest, nid =>
    let r := assignNewIds rest (nid + 1)
    (⟨d, nid⟩ :: r.1, r.2)

/-- Main loop of `_assign_track_ids`: for each current detection in input
order, reuse the best match's id (consuming it) or assign a fresh id. -/
def assignLoop : List Detection → List TrackedDet → List ℕ → ℕ → List TrackedDet × ℕ
  | [], _, _, nid => ([], nid)
  | c :: rest, previous, matched, nid =>
    match (findBestMatch c previous matched).2 with
    | some p =>
      let r := assignLoop rest previous (p.track_id :: matched) nid
      (⟨c, p.track_id⟩ :: r.1, r.2)
    | none =>
      let r := assignLoop rest previous matched (nid + 1)
      (⟨c, nid⟩ :: r.1, r.2)

/-- Embeds `VideoProcessor._assign_track_ids(current, previous, next_track_id)`:
returns the detections with assigned ids, and the advanced counter. -/
def assignTrackIds (current : List Detection) (previous : List TrackedDet) (nid : ℕ) :
    List TrackedDet × ℕ :=
  if previous.isEmpty then assignNewIds current nid
  else assignLoop current previous [] nid

/-! Spec-side tracker matching rule, written from the claim's words:
among previous tracks not yet matched in this call and sharing the label,
select the candidate with maximum IoU, ties to the earliest-iterated one;
reuse its id iff the maximum strictly exceeds 0.3, else assign fresh. -/

/-- Spec wording: the previous tracks "not yet matched in this call" that
"share its label". -/
def eligible (c : Detection) (previous : List TrackedDet) (matched : List ℕ) :
    List TrackedDet :=
  previous.filter (fun p => decide (p.track_id ∉ matched ∧ p.det.label = c.label))

/-- Spec wording: the maximum IoU over a candidate list (0 when empty). -/
def maxIoU (c : Detection) (cand : List TrackedDet) : ℚ :=
  cand.foldl (fun m p => max m (iouOf c p)) 0

/-- Spec wording: the candidate with maximum IoU, ties resolved to the
earliest-iterated candidate; selected only if the maximum exceeds 0.3. -/
def specSelect (c : Detection) (previous : List TrackedDet) (matched : List ℕ) :
    Option TrackedDet :=
  let cand := eligible c previous matched
  if 3 / 10 < maxIoU c cand then
    cand.find? (fun p => decide (iouOf c p = maxIoU c cand))
  else none

/-- Spec wording of the per-detection loop: reuse the selected candidate's
track id and consume it, otherwise take a fresh id and advance the counter. -/
def specAssignLoop : List Detection → List TrackedDet → List ℕ → ℕ → List TrackedDet × ℕ
  | [], _, _, nid => ([], nid)
  | c :: rest, previous, matched, nid =>
    match specSelect c previous matched with
    | some p =>
      let r := specAssignLoop rest previous (p.track_id :: matched) nid
      (⟨c, p.track_id⟩ :: r.1, r.2)
    | none =>
      let r := specAssignLoop rest previous matched (nid + 1)
      (⟨c, nid⟩ :: r.1, r.2)

/-- The claim's matching rule for an update call with a non-empty
previous-track set. -/
def specUpdate (current : List Detection) (previous : List TrackedDet) (nid : ℕ) :
    List TrackedDet × ℕ :=
  specAssignLoop current previous [] nid

/-- Running maximum of IoUs along a candidate list, seeded at `b`. -/
def maxFrom (c : Detection) (b : ℚ) (l : List TrackedDet) : ℚ :=
  l.foldl (fun m p => max m (iouOf c p)) b

/-! ## Python numeric helpers: `int(...)`, `round(...)`, division -/

/-- Python `int(x)`: truncation toward zero. -/
def pyInt (q : ℚ) : ℤ :=
  if 0 ≤ q then ⌊q⌋ else -⌊-q⌋

/-- Python `round(x)`: round half to even. Used only by the spec-side
definitions (the code uses `int`). -/
def pyRound (q : ℚ) : ℤ :=
  if q - ⌊q⌋ < 1 / 2 then ⌊q⌋
  else if 1 / 2 < q - ⌊q⌋ then ⌊q⌋ + 1
  else if Even ⌊q⌋ then ⌊q⌋ else ⌊q⌋ + 1

/-- Code expression `sample_rate = max(1, int(fps / 2))` from `process_video`. -/
def sampleRate (fps : ℚ) : ℤ :=
  max 1 (pyInt (fps / 2))

/-- Code expression `timestamp_ms = int((frame_num / fps) * 1000)`; raises
`ZeroDivisionError` when `fps == 0`. -/
def timestampMs (i : ℕ) (fps : ℚ) : Except String ℤ :=
  if fps = 0 then .error "ZeroDivisionError: float division by zero"
  else .ok (pyInt ((i : ℚ) / fps * 1000))

/-- Code expression `progress = (frame_num / total_frames) * 100`; raises
`ZeroDivisionError` when `total_frames == 0`. -/
def progressOf (i total : ℕ) : Except String ℚ :=
  if total = 0 then .error "ZeroDivisionError: division by zero"
  else .ok ((i : ℚ) / (total : ℚ) * 100)

/-- Spec-side sampling rate: `max(1, round(fps / 2))` (the spec says
`round`, the code says `int`). -/
def specSampleRate (fps : ℚ) : ℤ :=
  max 1 (pyRound (fps / 2))

/-- Spec-side timestamp: `round(i / fps * 1000)`. -/
def specTimestampMs (i : ℕ) (fps : ℚ) : ℤ :=
  pyRound ((i : ℚ) / fps * 1000)

/-! ## Data shapes of the pipeline artifacts -/

/-- Shape of `schemas/product.py::Product` (pydantic model), as returned by
`ProductSearchService.search_products`. -/
structure Product where
  product_id : String
  title : String
  brand : Option String
  price : Option ℚ
  currency : Option String
  image_url : String
  buy_url : String
  category : Option String
  confidence : ℚ
  deriving DecidableEq, Repr

/-- The dict returned by `_process_tracked_object` and stored in
`object_products` (the fallback path has no `mask_url` key). -/
structure Enrichment where
  track_id : ℕ
  category : String
  detection_method : String
  mask_url : Option String
  product : Option Product
  deriving DecidableEq, Repr

/-- Per-frame detection summary stored in `tracks_by_frame`
(`{'track_id', 'bbox', 'class', 'confidence'}`; `class` is `cls` here). -/
structure FrameDetection where
  track_id : ℕ
  bbox : BBox
  cls : String
  confidence : ℚ
  deriving DecidableEq, Repr

/-- The persisted tracking artifact written at the end of `process_video`. -/
structure TrackingArtifact where
  video_id : String
  fps : ℚ
  total_frames : ℕ
  tracks_by_frame : List (ℤ × List FrameDetection)
  object_products : List (ℕ × Enrichment)
  deriving DecidableEq, Repr

/-- Association-list lookup (Python dict read). -/
def lookupKey {α β : Type} [DecidableEq α] (k : α) : List (α × β) → Option β
  | [] => none
  | (k', v) :: rest => if k = k' then some v else lookupKey k rest

/-- Association-list write (Python dict assignment: replace or append). -/
def upsert {α β : Type} [DecidableEq α] (k : α) (v : β) : List (α × β) → List (α × β)
  | [] => [(k, v)]
  | (k', v') :: rest => if k = k' then (k, v) :: rest else (k', v') :: upsert k v rest

/-- Python `k in d` on an association list. -/
def hasKey {α β : Type} [DecidableEq α] (k : α) (l : List (α × β)) : Bool :=
  (lookupKey k l).isSome

/-! ## Job registry: `api/process.py` -/

/-- One record of the in-memory `processing_status` dict. -/
structure JobStatus where
  status : String
  progress : ℚ
  message : String
  logs : List String
  deriving DecidableEq, Repr

/-- Embeds `log_message` from `process_video_task`: append, then keep only the
last 50 entries. -/
def appendLog (logs : List String) (line : String) : List String :=
  let l := logs ++ [line]
  if 50 < l.length then l.drop (l.length - 50) else l

/-- The fresh record installed by `start_processing`. -/
def freshJobRecord : JobStatus :=
  ⟨"processing", 0, "Starting video processing...", []⟩

/-- Outcome of `start_processing` as observed by its caller. -/
inductive StartOutcome where
  | notFound : StartOutcome
  | alreadyProcessing : JobStatus → StartOutcome
  | started : StartOutcome
  deriving DecidableEq, Repr

/-- Embeds `start_processing`: 404 when the video file is missing; return the
existing record unchanged when it is `processing`; otherwise install a
fresh record and add the background task. The `Bool` reports whether a
background task was launched. -/
def startProcessing (reg : List (String × JobStatus)) (videoExists : Bool)
    (videoId : String) : List (String × JobStatus) × StartOutcome × Bool :=
  if videoExists then
    match lookupKey videoId reg with
    | some st =>
      if st.status = "processing" then (reg, .alreadyProcessing st, false)
      else (upsert videoId freshJobRecord reg, .started, true)
    | none => (upsert videoId freshJobRecord reg, .started, true)
  else (reg, .notFound, false)

/-- Response shape of `get_processing_status`. -/
structure StatusResponse where
  video_id : String
  status : String
  progress : ℚ
  message : String
  logs : List String
  deriving DecidableEq, Repr

/-- Embeds `get_processing_status`: in-memory record if present; else a
synthesized completed record when a persisted tracking artifact exists;
else 404 (`none`). -/
def getProcessingStatus (reg : List (String × JobStatus))
    (store : List (String × TrackingArtifact)) (videoId : String) :
    Option StatusResponse :=
  match lookupKey videoId reg with
  | none =>
    if hasKey videoId store then
      some ⟨videoId, "completed", 100, "Video processing completed", []⟩
    else none
  | some st => some ⟨videoId, st.status, st.progress, st.message, st.logs⟩

/-! ## Pipeline model: `VideoProcessor.process_video` and
`_process_tracked_object`.  Collaborator calls (detector, segmenter,
product search) are opaque fallible functions; a Python exception is an
`Except.error` carrying its message. -/

/-- External collaborators of the frame loop.  `detect` is
`grounding_dino.detect_products` on the frame read at a given index,
`segment` is `segmentation_service.segment_with_box` (plus the local file
shuffling around it), `search` is `product_search.search_products`. -/
structure Collaborators where
  detect : ℕ → Except String (List Detection)
  segment : ℕ → BBox → Except String String
  search : String → Except String (List Product)

/-- The mask URL built by `_process_tracked_object`:
`/static/masks/{video_id}/track_{track_id}_frame_{timestamp_ms}.png`. -/
def maskUrlOf (videoId : String) (trackId : ℕ) (tsMs : ℤ) : String :=
  "/static/masks/" ++ videoId ++ "/track_" ++ toString trackId ++
    "_frame_" ++ toString tsMs ++ ".png"

/-- Embeds `_process_tracked_object`: try segmentation then product search; on
any exception fall back to product search alone (method `owlvit`, no
mask) — an exception in that second search propagates. -/
def processTrackedObject (C : Collaborators) (frameIdx : ℕ) (videoId : String)
    (d : Detection) (trackId : ℕ) (tsMs : ℤ) : Except String Enrichment :=
  let tryBranch : Except String Enrichment := do
    let _maskRes ← C.segment frameIdx d.bbox
    let products ← C.search d.label
    pure ⟨trackId, d.label, "owlvit_sam", some (maskUrlOf videoId trackId tsMs),
      products.head?⟩
  match tryBranch with
  | .ok info => .ok info
  | .error _ =>
    match C.search d.label with
    | .ok products => .ok ⟨trackId, d.label, "owlvit", none, products.head?⟩
    | .error e => .error e

/-- Mutable state of one `process_video` run.  The last three fields are
ghost history for specification only: enrichment-call events, the ids the
tracker assigned per analyzed frame, and the recorded timestamps. -/
structure RunState where
  nextTrackId : ℕ
  previous : List TrackedDet
  tracksByFrame : List (ℤ × List FrameDetection)
  objectProducts : List (ℕ × Enrichment)
  logs : List String
  progress : ℚ
  message : String
  processedFrames : ℕ
  enrichEvents : List (ℕ × ℕ)
  assignHistory : List (ℕ × List ℕ)
  tsHistory : List (ℕ × ℤ)
  deriving Repr

/-- The `for detection in detections` loop of an analyzed frame: build the
frame summaries and enrich each track id not yet in `object_products`,
logging one line per enrichment.  Returns the summaries, the state after
the partial mutations, and the first uncaught exception if any. -/
def processDetections (C : Collaborators) (videoId : String) (fps : ℚ)
    (frameIdx : ℕ) :
    List TrackedDet → List FrameDetection → RunState →
      List FrameDetection × RunState × Option String
  | [], acc, s => (acc, s, none)
  | td :: rest, acc, s =>
    let fd : FrameDetection := ⟨td.track_id, td.det.bbox, td.det.label, td.det.confidence⟩
    let acc' := acc ++ [fd]
    if hasKey td.track_id s.objectProducts then
      processDetections C videoId fps frameIdx rest acc' s
    else
      match timestampMs frameIdx fps with
      | .error e => (acc', s, some e)
      | .ok ts =>
        match processTrackedObject C frameIdx videoId td.det td.track_id ts with
        | .error e => (acc', s, some e)
        | .ok info =>
          let logLine := "Track " ++ toString td.track_id ++ ": " ++ td.det.label ++
            " [OWL-ViT + SAM] -> " ++ info.category
          let s' := { s with
            objectProducts := upsert td.track_id info s.objectProducts,
            logs := appendLog s.logs logLine,
            enrichEvents := s.enrichEvents ++ [(frameIdx, td.track_id)] }
          processDetections C videoId fps frameIdx rest acc' s'

/-- One iteration of the frame loop for the frame at index `i`: skip it
unless `i % sample_rate == 0`; otherwise detect, assign track ids, enrich
new tracks, record the frame summaries under the frame timestamp, replace
`previous_detections`, and report progress. -/
def stepFrame (C : Collaborators) (videoId : String) (fps : ℚ)
    (totalFrames : ℕ) (i : ℕ) (s : RunState) : RunState × Option String :=
  if (i : ℤ) % sampleRate fps = 0 then
    match C.detect i with
    | .error e => (s, some e)
    | .ok dets =>
      let r := assignTrackIds dets s.previous s.nextTrackId
      let s1 := { s with
                  nextTrackId := r.2
                  assignHistory := s.assignHistory ++ [(i, r.1.map (·.track_id))] }
      match processDetections C videoId fps i r.1 [] s1 with
      | (_, s2, some e) => (s2, some e)
      | (frameDets, s2, none) =>
        match timestampMs i fps with
        | .error e => (s2, some e)
        | .ok ts =>
          let s3 := { s2 with
                      tracksByFrame := upsert ts frameDets s2.tracksByFrame
                      previous := r.1
                      processedFrames := s2.processedFrames + 1
                      tsHistory := s2.tsHistory ++ [(i, ts)] }
          match progressOf i totalFrames with
          | .error e => (s3, some e)
          | .ok prog =>
            ({ s3 with
               progress := prog
               message := "Processing frame " ++ toString i ++ "/" ++
                 toString totalFrames ++ " - Found " ++ toString dets.length ++
                 " objects" }, none)
  else (s, none)

/-- The `while cap.isOpened()` loop over the readable frame indices; an
uncaught exception aborts the loop, keeping the mutations made so far. -/
def runLoop (C : Collaborators) (videoId : String) (fps : ℚ) (totalFrames : ℕ) :
    List ℕ → RunState → RunState × Option String
  | [], s => (s, none)
  | i :: rest, s =>
    match stepFrame C videoId fps totalFrames i s with
    | (s', none) => runLoop C videoId fps totalFrames rest s'
    | (s', some e) => (s', some e)

/-- The video handle opened with `cv2.VideoCapture`: when opening fails,
`isOpened()` is false, `get(...)` reports 0, and no frame is read. -/
structure VideoSource where
  opened : Bool
  fps : ℚ
  totalFrames : ℕ
  numFrames : ℕ
  deriving Repr

/-- Value of `cap.get(cv2.CAP_PROP_FPS)`. -/
def effFps (src : VideoSource) : ℚ := if src.opened then src.fps else 0

/-- Value of `int(cap.get(cv2.CAP_PROP_FRAME_COUNT))`. -/
def effTotalFrames (src : VideoSource) : ℕ := if src.opened then src.totalFrames else 0

/-- Number of frames the `cap.read()` loop yields before `ret` is false. -/
def effNumFrames (src : VideoSource) : ℕ := if src.opened then src.numFrames else 0

/-- State of `process_video` before the frame loop, including the two
startup log lines and the fresh job record fields the callbacks mutate. -/
def initState (videoId : String) : RunState :=
  { nextTrackId := 1
    previous := []
    tracksByFrame := []
    objectProducts := []
    logs := appendLog (appendLog [] ("Starting video processing for " ++ videoId))
      "Using OWL-ViT (zero-shot detection) + SAM (segmentation) + IoU tracking"
    progress := 0
    message := "Starting video processing..."
    processedFrames := 0
    enrichEvents := []
    assignHistory := []
    tsHistory := [] }

/-- The whole frame loop of `process_video` for one job run. -/
def runVideo (C : Collaborators) (src : VideoSource) (videoId : String) :
    RunState × Option String :=
  runLoop C videoId (effFps src) (effTotalFrames src)
    (List.range (effNumFrames src)) (initState videoId)

/-- The `output_data` dict `process_video` persists and returns. -/
def mkArtifact (src : VideoSource) (videoId : String) (s : RunState) :
    TrackingArtifact :=
  ⟨videoId, effFps src, effTotalFrames src, s.tracksByFrame, s.objectProducts⟩

/-- Embeds `process_video_task`: run the pipeline; on return mark the job
completed (progress 100); on an uncaught exception replace the record with
a failed one embedding the error, keeping the accumulated logs.  The
artifact is persisted exactly when `process_video` returns normally. -/
def processVideoTask (reg : List (String × JobStatus))
    (store : List (String × TrackingArtifact)) (C : Collaborators)
    (src : VideoSource) (videoId : String) :
    List (String × JobStatus) × List (String × TrackingArtifact) :=
  let r := runVideo C src videoId
  match r.2 with
  | none =>
    (upsert videoId ⟨"completed", 100, "Video processing completed successfully", r.1.logs⟩ reg,
     upsert videoId (mkArtifact src videoId r.1) store)
  | some e =>
    (upsert videoId ⟨"failed", 0, "Processing failed: " ++ e, r.1.logs⟩ reg, store)

/-! ## Run-level helper lemmas -/

/-- Fields of the run state that the inner detection loop never touches. -/
def sameFrameMeta (s s' : RunState) : Prop :=
  s'.tsHistory = s.tsHistory ∧ s'.assignHistory = s.assignHistory ∧
  s'.previous = s.previous ∧ s'.nextTrackId = s.nextTrackId ∧
  s'.tracksByFrame = s.tracksByFrame ∧ s'.processedFrames = s.processedFrames

/-! ## C4: collaborator-failure policy -/

/-- All stored enrichments took the fallback path: downgraded
`detection_method` and no mask reference. -/
def allDegraded (m : List (ℕ × Enrichment)) : Prop :=
  ∀ kv ∈ m, kv.2.detection_method = "owlvit" ∧ kv.2.mask_url = none

/-! ## C2: exactly-once enrichment -/

/-- A track id appears somewhere in the tracker's per-frame output. -/
def appears (t : ℕ) (history : List (ℕ × List ℕ)) : Bool :=
  history.any (fun p => decide (t ∈ p.2))

/-- The first analyzed frame whose tracker output contains `t`. -/
def firstOccur (t : ℕ) (history : List (ℕ × List ℕ)) : Option ℕ :=
  (history.find? (fun p => decide (t ∈ p.2))).map Prod.fst

/-- Number of enrichment invocations recorded for track id `t`. -/
def countEvents (t : ℕ) (events : List (ℕ × ℕ)) : ℕ :=
  events.countP (fun e => decide (e.2 = t))

/-- The enrichment bookkeeping invariant of one run: the enrichment index
holds exactly the ids that appeared in tracker output; each of those ids
has exactly one recorded enrichment invocation; each invocation happened
at the first frame where its id appeared. -/
def EnrichInv (s : RunState) : Prop :=
  (∀ t, hasKey t s.objectProducts = appears t s.assignHistory) ∧
  (∀ t, countEvents t s.enrichEvents =
    if hasKey t s.objectProducts = true then 1 else 0) ∧
  (∀ e ∈ s.enrichEvents, firstOccur e.2 s.assignHistory = some e.1)

lemma maxFrom_nil (c : Detection) (b : ℚ) : maxFrom c b [] = b := rfl

lemma maxFrom_cons (c : Detection) (b : ℚ) (p : TrackedDet) (l : List TrackedDet) :
    maxFrom c b (p :: l) = maxFrom c (max b (iouOf c p)) l := rfl

lemma le_maxFrom (c : Detection) (l : List TrackedDet) (b : ℚ) :
    b ≤ maxFrom c b l := by
  induction l generalizing b with
  | nil => simp [maxFrom_nil]
  | cons p l ih =>
    rw [maxFrom_cons]
    exact le_trans (le_max_left _ _) (ih _)

lemma maxFrom_max (c : Detection) (l : List TrackedDet) (a b : ℚ) :
    maxFrom c (max a b) l = max a (maxFrom c b l) := by
  induction l generalizing b with
  | nil => simp [maxFrom_nil]
  | cons p l ih =>
    rw [maxFrom_cons, maxFrom_cons, max_assoc, ih]

lemma maxIoU_eq_maxFrom (c : Detection) (l : List TrackedDet) :
    maxIoU c l = maxFrom c 0 l := rfl

lemma trackFold_fst (c : Detection) (l : List TrackedDet) (b : ℚ) (o : Option TrackedDet) :
    (l.foldl (trackStep c) (b, o)).1 = maxFrom c b l := by
  induction l generalizing b o with
  | nil => simp [maxFrom_nil]
  | cons p l ih =>
    rw [List.foldl_cons, maxFrom_cons]
    by_cases hbi : b < iouOf c p
    · rw [show trackStep c (b, o) p = (iouOf c p, some p) from if_pos hbi,
        max_eq_right (le_of_lt hbi)]
      exact ih _ _
    · rw [show trackStep c (b, o) p = (b, o) from if_neg hbi,
        max_eq_left (not_lt.1 hbi)]
      exact ih _ _

lemma trackFold_snd (c : Detection) (l : List TrackedDet) (b : ℚ) (o : Option TrackedDet) :
    (l.foldl (trackStep c) (b, o)).2 =
      if b < maxFrom c b l then
        l.find? (fun p => decide (iouOf c p = maxFrom c b l))
      else o := by
  induction l generalizing b o with
  | nil => simp [maxFrom_nil]
  | cons p l ih =>
    rw [List.foldl_cons, maxFrom_cons]
    by_cases hbi : b < iouOf c p
    · rw [show trackStep c (b, o) p = (iouOf c p, some p) from if_pos hbi,
        max_eq_right (le_of_lt hbi), ih]
      have hM : iouOf c p ≤ maxFrom c (iouOf c p) l := le_maxFrom _ _ _
      have hbM : b < maxFrom c (iouOf c p) l := lt_of_lt_of_le hbi hM
      rw [if_pos hbM]
      by_cases hlt : iouOf c p < maxFrom c (iouOf c p) l
      · rw [if_pos hlt, List.find?_cons]
        have hne : ¬(iouOf c p = maxFrom c (iouOf c p) l) := ne_of_lt hlt
        simp [hne]
      · have heq : maxFrom c (iouOf c p) l = iouOf c p :=
          le_antisymm (not_lt.1 hlt) hM
        rw [if_neg hlt, List.find?_cons]
        simp [heq]
    · rw [show trackStep c (b, o) p = (b, o) from if_neg hbi,
        max_eq_left (not_lt.1 hbi), ih]
      by_cases hbM : b < maxFrom c b l
      · rw [if_pos hbM, if_pos hbM, List.find?_cons]
        have hne : ¬(iouOf c p = maxFrom c b l) :=
          ne_of_lt (lt_of_le_of_lt (not_lt.1 hbi) hbM)
        simp [hne]
      · rw [if_neg hbM, if_neg hbM]

lemma findBestMatch_eq_filter (c : Detection) (matched : List ℕ)
    (prev : List TrackedDet) :
    findBestMatch c prev matched =
      (eligible c prev matched).foldl (trackStep c) (3 / 10, none) := by
  unfold findBestMatch
  generalize (((3 : ℚ) / 10, (none : Option TrackedDet))) = acc
  induction prev generalizing acc with
  | nil => simp [eligible]
  | cons p rest ih =>
    by_cases hm : p.track_id ∈ matched
    · simp only [List.foldl_cons, if_pos hm]
      rw [ih]
      have : eligible c (p :: rest) matched = eligible c rest matched := by
        simp [eligible, List.filter_cons, hm]
      rw [this]
    · by_cases hl : c.label = p.det.label
      · simp only [List.foldl_cons, if_neg hm]
        rw [if_neg (by simp [hl])]
        have : eligible c (p :: rest) matched = p :: eligible c rest matched := by
          simp [eligible, List.filter_cons, hm, hl.symm]
        rw [this, List.foldl_cons]
        exact ih _
      · simp only [List.foldl_cons, if_neg hm]
        rw [if_pos (by simp [hl])]
        have hl' : ¬p.det.label = c.label := fun h => hl h.symm
        have : eligible c (p :: rest) matched = eligible c rest matched := by
          simp [eligible, List.filter_cons, hm, hl']
        rw [this, ih]

lemma findBestMatch_snd_eq_specSelect (c : Detection) (prev : List TrackedDet)
    (matched : List ℕ) :
    (findBestMatch c prev matched).2 = specSelect c prev matched := by
  rw [findBestMatch_eq_filter, trackFold_snd, specSelect]
  have hM : maxFrom c (3 / 10) (eligible c prev matched) =
      max (3 / 10) (maxIoU c (eligible c prev matched)) := by
    rw [maxIoU_eq_maxFrom, ← maxFrom_max]
    norm_num
  rw [hM]
  by_cases h : (3 : ℚ) / 10 < maxIoU c (eligible c prev matched)
  · rw [if_pos (by rw [lt_max_iff]; right; exact h), if_pos h,
      max_eq_right (le_of_lt h)]
  · rw [if_neg (by rw [lt_max_iff]; push_neg; exact ⟨le_refl _, not_lt.1 h⟩ ), if_neg h]

lemma assignLoop_eq_specAssignLoop (current : List Detection)
    (previous : List TrackedDet) (matched : List ℕ) (nid : ℕ) :
    assignLoop current previous matched nid =
      specAssignLoop current previous matched nid := by
  induction current generalizing matched nid with
  | nil => rfl
  | cons c rest ih =>
    rw [assignLoop, specAssignLoop, findBestMatch_snd_eq_specSelect]
    cases specSelect c previous matched with
    | some p => simp only [ih]
    | none => simp only [ih]

/-! ## Generic association-list lemmas -/

lemma lookupKey_upsert_self {α β : Type} [DecidableEq α] (k : α) (v : β)
    (l : List (α × β)) : lookupKey k (upsert k v l) = some v := by
  induction l with
  | nil => simp [upsert, lookupKey]
  | cons kv rest ih =>
    by_cases h : k = kv.1
    · simp [upsert, h, lookupKey]
    · simp [upsert, h, lookupKey, ih]

lemma hasKey_upsert {α β : Type} [DecidableEq α] (k k₂ : α) (v : β)
    (l : List (α × β)) :
    hasKey k (upsert k₂ v l) = (decide (k = k₂) || hasKey k l) := by
  induction l with
  | nil =>
    by_cases h : k = k₂ <;> simp [upsert, lookupKey, hasKey, h]
  | cons kv rest ih =>
    simp only [upsert]
    by_cases h : k₂ = kv.1
    · by_cases h2 : k = k₂
      · subst h2
        simp [lookupKey, hasKey, h]
      · have h3 : ¬k = kv.1 := fun hh => h2 (hh.trans h.symm)
        simp [lookupKey, hasKey, h, h2, h3]
    · rw [if_neg h]
      by_cases h2 : k = kv.1
      · simp [lookupKey, hasKey, h2]
      · simp only [hasKey, lookupKey, if_neg h2] at ih ⊢
        exact ih

/-! ## C7: bounded FIFO log -/

/-- C7: `append_log` appends the new line and truncates to the most recent
50 entries: the resulting length is `min (old + 1) 50` (so it never
exceeds 50), an append below capacity keeps everything, and the 51st
append evicts exactly the oldest entry, preserving the order of the rest. -/
theorem appendLog_bounded_fifo (logs : List String) (line : String) :
    (appendLog logs line).length = min (logs.length + 1) 50 ∧
    (logs.length < 50 → appendLog logs line = logs ++ [line]) ∧
    (logs.length = 50 → appendLog logs line = logs.drop 1 ++ [line]) := by
  unfold appendLog
  by_cases h : 50 < (logs ++ [line]).length
  · rw [if_pos h]
    simp only [List.length_append, List.length_singleton] at h
    refine ⟨?_, ?_, ?_⟩
    · rw [List.length_drop]
      simp only [List.length_append, List.length_singleton]
      omega
    · intro h2; omega
    · intro h50
      rw [List.drop_append_eq_append_drop]
      simp [h50]
  · rw [if_neg h]
    simp only [List.length_append, List.length_singleton] at h
    refine ⟨?_, fun _ => rfl, fun h50 => absurd h50 (by omega)⟩
    simp only [List.length_append, List.length_singleton]
    omega

/-- Witness for C7 at a concrete full log: the 51st append has length 50
and equals the old log minus its first entry plus the new line. -/
theorem appendLog_bounded_fifo_witness :
    (appendLog (List.replicate 50 "a") "b").length = min (50 + 1) 50 ∧
    appendLog (List.replicate 50 "a") "b" =
      (List.replicate 50 "a").drop 1 ++ ["b"] := by
  have h := appendLog_bounded_fifo (List.replicate 50 "a") "b"
  refine ⟨?_, h.2.2 (by simp)⟩
  have := h.1
  simpa using this

/-! ## C8: status query fallback -/

/-- C8: `get_processing_status` returns the in-memory record when one
exists; else, when a persisted tracking artifact exists, a synthesized
completed record with progress 100; else not-found. -/
theorem getStatus_fallback (reg : List (String × JobStatus))
    (store : List (String × TrackingArtifact)) (videoId : String) :
    (∀ st, lookupKey videoId reg = some st →
      getProcessingStatus reg store videoId =
        some ⟨videoId, st.status, st.progress, st.message, st.logs⟩) ∧
    (lookupKey videoId reg = none → hasKey videoId store = true →
      getProcessingStatus reg store videoId =
        some ⟨videoId, "completed", 100, "Video processing completed", []⟩) ∧
    (lookupKey videoId reg = none → hasKey videoId store = false →
      getProcessingStatus reg store videoId = none) := by
  refine ⟨?_, ?_, ?_⟩
  · intro st h
    simp [getProcessingStatus, h]
  · intro h ha
    simp [getProcessingStatus, h, ha]
  · intro h ha
    simp [getProcessingStatus, h, ha]

/-- Witness for C8: a registry holding one processing record, a store
holding one artifact for another id, and a fresh id exercise all three
branches. -/
theorem getStatus_fallback_witness :
    getProcessingStatus [("a", ⟨"processing", 5, "m", ["l"]⟩)] [] "a" =
      some ⟨"a", "processing", 5, "m", ["l"]⟩ ∧
    getProcessingStatus [] [("b", ⟨"b", 0, 0, [], []⟩)] "b" =
      some ⟨"b", "completed", 100, "Video processing completed", []⟩ ∧
    getProcessingStatus [] [] "c" = none := by
  refine ⟨?_, ?_, ?_⟩
  · exact (getStatus_fallback [("a", ⟨"processing", 5, "m", ["l"]⟩)] [] "a").1
      ⟨"processing", 5, "m", ["l"]⟩ (by simp [lookupKey])
  · exact (getStatus_fallback [] [("b", ⟨"b", 0, 0, [], []⟩)] "b").2.1
      (by simp [lookupKey]) (by simp [hasKey, lookupKey])
  · exact (getStatus_fallback [] [] "c").2.2 (by simp [lookupKey])
      (by simp [hasKey, lookupKey])

/-! ## C6: single-flight start -/

/-- C6: `start_processing` returns an existing `processing` record
unchanged without launching a second run; otherwise it installs the fresh
record `{processing, 0, starting message, []}` and launches the background
task; hence two consecutive start calls launch exactly one run and leave
the same single fresh record in the registry. -/
theorem startProcessing_single_flight (reg : List (String × JobStatus))
    (videoId : String) :
    (∀ st, lookupKey videoId reg = some st → st.status = "processing" →
      startProcessing reg true videoId = (reg, .alreadyProcessing st, false)) ∧
    (∀ st, lookupKey videoId reg = some st → st.status ≠ "processing" →
      startProcessing reg true videoId =
        (upsert videoId freshJobRecord reg, .started, true)) ∧
    (lookupKey videoId reg = none →
      startProcessing reg true videoId =
        (upsert videoId freshJobRecord reg, .started, true)) ∧
    (lookupKey videoId reg = none →
      (startProcessing reg true videoId).2.2 = true ∧
      startProcessing (startProcessing reg true videoId).1 true videoId =
        ((startProcessing reg true videoId).1,
          .alreadyProcessing freshJobRecord, false)) := by
  refine ⟨?_, ?_, ?_, ?_⟩
  · intro st h hp
    simp [startProcessing, h, hp]
  · intro st h hp
    simp [startProcessing, h, hp]
  · intro h
    simp [startProcessing, h]
  · intro h
    have h1 : startProcessing reg true videoId =
        (upsert videoId freshJobRecord reg, .started, true) := by
      simp [startProcessing, h]
    refine ⟨by rw [h1], ?_⟩
    rw [h1]
    simp [startProcessing, lookupKey_upsert_self, freshJobRecord]

/-- Witness for C6: starting twice from an empty registry launches once,
then returns the identical processing record without a second launch. -/
theorem startProcessing_single_flight_witness :
    (startProcessing ([] : List (String × JobStatus)) true "v").2.2 = true ∧
    startProcessing (startProcessing ([] : List (String × JobStatus)) true "v").1 true "v" =
      ((startProcessing ([] : List (String × JobStatus)) true "v").1,
        .alreadyProcessing freshJobRecord, false) :=
  (startProcessing_single_flight [] "v").2.2.2 rfl

/-! ## C9: IoU algebra -/

lemma calculateIoU_nonneg (a b : BBox) : 0 ≤ calculateIoU a b := by
  simp only [calculateIoU]
  split_ifs with h h2
  · exact le_refl 0
  · push_neg at h
    have hx : max a.x b.x ≤ min (a.x + a.width) (b.x + b.width) := h.1
    have hy : max a.y b.y ≤ min (a.y + a.height) (b.y + b.height) := h.2
    have hi : 0 ≤ (min (a.x + a.width) (b.x + b.width) - max a.x b.x) *
        (min (a.y + a.height) (b.y + b.height) - max a.y b.y) :=
      mul_nonneg (by linarith) (by linarith)
    exact div_nonneg hi (le_of_lt h2)
  · exact le_refl 0

lemma calculateIoU_self {b : BBox} (hw : 0 < b.width) (hh : 0 < b.height) :
    calculateIoU b b = 1 := by
  simp only [calculateIoU]
  rw [if_neg (by simp; constructor <;> linarith)]
  simp only [min_self, max_self, add_sub_cancel_left]
  rw [if_pos (by nlinarith)]
  have : b.width * b.height ≠ 0 := by positivity
  field_simp

lemma calculateIoU_comm (a b : BBox) : calculateIoU a b = calculateIoU b a := by
  simp only [calculateIoU]
  rw [max_comm b.x a.x, max_comm b.y a.y,
    min_comm (b.x + b.width) (a.x + a.width),
    min_comm (b.y + b.height) (a.y + a.height),
    add_comm (b.width * b.height) (a.width * a.height)]

lemma calculateIoU_le_one (a b : BBox) (haw : 0 < a.width) (hah : 0 < a.height)
    (hbw : 0 < b.width) (hbh : 0 < b.height) : calculateIoU a b ≤ 1 := by
  simp only [calculateIoU]
  split_ifs with h h2
  · norm_num
  · push_neg at h
    rw [div_le_one h2]
    have hx : max a.x b.x ≤ min (a.x + a.width) (b.x + b.width) := h.1
    have hy : max a.y b.y ≤ min (a.y + a.height) (b.y + b.height) := h.2
    set iw := min (a.x + a.width) (b.x + b.width) - max a.x b.x with hiw
    set ih := min (a.y + a.height) (b.y + b.height) - max a.y b.y with hih
    have hiw0 : 0 ≤ iw := by rw [hiw]; linarith
    have hih0 : 0 ≤ ih := by rw [hih]; linarith
    have hiwa : iw ≤ a.width := by
      have h1 := min_le_left (a.x + a.width) (b.x + b.width)
      have h2 := le_max_left a.x b.x
      simp only [hiw]; linarith
    have hiha : ih ≤ a.height := by
      have h1 := min_le_left (a.y + a.height) (b.y + b.height)
      have h2 := le_max_left a.y b.y
      simp only [hih]; linarith
    have hiwb : iw ≤ b.width := by
      have h1 := min_le_right (a.x + a.width) (b.x + b.width)
      have h2 := le_max_right a.x b.x
      simp only [hiw]; linarith
    have hihb : ih ≤ b.height := by
      have h1 := min_le_right (a.y + a.height) (b.y + b.height)
      have h2 := le_max_right a.y b.y
      simp only [hih]; linarith
    have hA : iw * ih ≤ a.width * a.height :=
      mul_le_mul hiwa hiha hih0 (le_of_lt haw)
    have hB : iw * ih ≤ b.width * b.height :=
      mul_le_mul hiwb hihb hih0 (le_of_lt hbw)
    linarith
  · norm_num

lemma calculateIoU_disjoint (a b : BBox)
    (hsep : a.x + a.width ≤ b.x ∨ b.x + b.width ≤ a.x ∨
      a.y + a.height ≤ b.y ∨ b.y + b.height ≤ a.y) :
    calculateIoU a b = 0 := by
  simp only [calculateIoU]
  split_ifs with h h2
  · rfl
  · push_neg at h
    have hx : max a.x b.x ≤ min (a.x + a.width) (b.x + b.width) := h.1
    have hy : max a.y b.y ≤ min (a.y + a.height) (b.y + b.height) := h.2
    have hzero : (min (a.x + a.width) (b.x + b.width) - max a.x b.x) *
        (min (a.y + a.height) (b.y + b.height) - max a.y b.y) = 0 := by
      rcases hsep with h1 | h1 | h1 | h1
      · have e1 := min_le_left (a.x + a.width) (b.x + b.width)
        have e2 := le_max_right a.x b.x
        have : min (a.x + a.width) (b.x + b.width) - max a.x b.x = 0 := by linarith
        rw [this, zero_mul]
      · have e1 := min_le_right (a.x + a.width) (b.x + b.width)
        have e2 := le_max_left a.x b.x
        have : min (a.x + a.width) (b.x + b.width) - max a.x b.x = 0 := by linarith
        rw [this, zero_mul]
      · have e1 := min_le_left (a.y + a.height) (b.y + b.height)
        have e2 := le_max_right a.y b.y
        have : min (a.y + a.height) (b.y + b.height) - max a.y b.y = 0 := by linarith
        rw [this, mul_zero]
      · have e1 := min_le_right (a.y + a.height) (b.y + b.height)
        have e2 := le_max_left a.y b.y
        have : min (a.y + a.height) (b.y + b.height) - max a.y b.y = 0 := by linarith
        rw [this, mul_zero]
    rw [hzero, zero_div]
  · rfl

lemma calculateIoU_union_zero (a b : BBox) (hu : unionAreaQ a b = 0) :
    calculateIoU a b = 0 := by
  unfold unionAreaQ interAreaQ at hu
  simp only [calculateIoU]
  split_ifs with h h2
  · rfl
  · exact absurd h2 (by rw [show a.width * a.height + b.width * b.height -
      (min (a.x + a.width) (b.x + b.width) - max a.x b.x) *
        (min (a.y + a.height) (b.y + b.height) - max a.y b.y) = 0 from hu]; exact lt_irrefl 0)
  · rfl

/-- C9: for boxes `a b` with positive width and height, `IoU(a,a) = 1`,
IoU is symmetric, `0 ≤ IoU(a,b) ≤ 1`, and separated boxes have IoU 0; for
any boxes `c d` whose union area is 0 the IoU is 0 as well. -/
theorem iou_algebra (a b c d : BBox) (haw : 0 < a.width) (hah : 0 < a.height)
    (hbw : 0 < b.width) (hbh : 0 < b.height) :
    calculateIoU a a = 1 ∧
    calculateIoU a b = calculateIoU b a ∧
    0 ≤ calculateIoU a b ∧
    calculateIoU a b ≤ 1 ∧
    ((a.x + a.width ≤ b.x ∨ b.x + b.width ≤ a.x ∨
        a.y + a.height ≤ b.y ∨ b.y + b.height ≤ a.y) →
      calculateIoU a b = 0) ∧
    (unionAreaQ c d = 0 → calculateIoU c d = 0) :=
  ⟨calculateIoU_self haw hah, calculateIoU_comm a b, calculateIoU_nonneg a b,
    calculateIoU_le_one a b haw hah hbw hbh,
    calculateIoU_disjoint a b, calculateIoU_union_zero c d⟩

/-- Witness for C9 at `a = (0,0,2,2)`, `b = (5,5,2,2)` (positive,
separated) and the degenerate `c = d = (0,0,0,0)` (union area 0). -/
theorem iou_algebra_witness :
    calculateIoU ⟨0, 0, 2, 2⟩ ⟨0, 0, 2, 2⟩ = 1 ∧
    calculateIoU ⟨0, 0, 2, 2⟩ ⟨5, 5, 2, 2⟩ = calculateIoU ⟨5, 5, 2, 2⟩ ⟨0, 0, 2, 2⟩ ∧
    0 ≤ calculateIoU ⟨0, 0, 2, 2⟩ ⟨5, 5, 2, 2⟩ ∧
    calculateIoU ⟨0, 0, 2, 2⟩ ⟨5, 5, 2, 2⟩ ≤ 1 ∧
    calculateIoU ⟨0, 0, 2, 2⟩ ⟨5, 5, 2, 2⟩ = 0 ∧
    calculateIoU ⟨0, 0, 0, 0⟩ ⟨0, 0, 0, 0⟩ = 0 := by
  have h := iou_algebra ⟨0, 0, 2, 2⟩ ⟨5, 5, 2, 2⟩ ⟨0, 0, 0, 0⟩ ⟨0, 0, 0, 0⟩
    (by norm_num) (by norm_num) (by norm_num) (by norm_num)
  exact ⟨h.1, h.2.1, h.2.2.1, h.2.2.2.1,
    h.2.2.2.2.1 (by norm_num),
    h.2.2.2.2.2 (by norm_num [unionAreaQ, interAreaQ])⟩

/-! ## C1: tracker matching rule -/

/-- C1: for an update call with a non-empty previous-track set,
`_assign_track_ids` implements exactly the claimed rule: each current
detection, in input order, selects among the not-yet-consumed previous
tracks of the same label the one of maximum IoU (ties to the earliest
candidate, only strictly greater IoU replacing the best); it reuses that
id iff the maximum strictly exceeds 0.3, consuming the candidate, and
otherwise receives the fresh id, advancing the counter by one. -/
theorem tracker_matching_rule (current : List Detection)
    (previous : List TrackedDet) (nid : ℕ) (h : previous ≠ []) :
    assignTrackIds current previous nid = specUpdate current previous nid := by
  unfold assignTrackIds specUpdate
  rw [if_neg (by simpa using h)]
  exact assignLoop_eq_specAssignLoop current previous [] nid

/-- Witness for C1: one previous `cup` track (id 5); a current `cup` with
IoU 1/3 > 0.3 reuses id 5, and a `bottle` with the identical bbox gets the
fresh id 7. -/
theorem tracker_matching_rule_witness :
    ((⟨⟨⟨0, 0, 2, 2⟩, "cup", 1⟩, 5⟩ : TrackedDet) :: []) ≠ [] ∧
    assignTrackIds [⟨⟨0, 1, 2, 2⟩, "cup", 1⟩, ⟨⟨0, 0, 2, 2⟩, "bottle", 1⟩]
        [⟨⟨⟨0, 0, 2, 2⟩, "cup", 1⟩, 5⟩] 7 =
      specUpdate [⟨⟨0, 1, 2, 2⟩, "cup", 1⟩, ⟨⟨0, 0, 2, 2⟩, "bottle", 1⟩]
        [⟨⟨⟨0, 0, 2, 2⟩, "cup", 1⟩, 5⟩] 7 ∧
    assignTrackIds [⟨⟨0, 1, 2, 2⟩, "cup", 1⟩, ⟨⟨0, 0, 2, 2⟩, "bottle", 1⟩]
        [⟨⟨⟨0, 0, 2, 2⟩, "cup", 1⟩, 5⟩] 7 =
      ([⟨⟨⟨0, 1, 2, 2⟩, "cup", 1⟩, 5⟩, ⟨⟨⟨0, 0, 2, 2⟩, "bottle", 1⟩, 7⟩], 8) := by
  refine ⟨by simp, tracker_matching_rule _ _ 7 (by simp), ?_⟩
  norm_num [assignTrackIds, assignLoop, findBestMatch, trackStep, iouOf,
    calculateIoU]

lemma sameFrameMeta_refl (s : RunState) : sameFrameMeta s s :=
  ⟨rfl, rfl, rfl, rfl, rfl, rfl⟩

lemma sameFrameMeta_trans {s1 s2 s3 : RunState} (h1 : sameFrameMeta s1 s2)
    (h2 : sameFrameMeta s2 s3) : sameFrameMeta s1 s3 :=
  ⟨h2.1.trans h1.1, h2.2.1.trans h1.2.1, h2.2.2.1.trans h1.2.2.1,
    h2.2.2.2.1.trans h1.2.2.2.1, h2.2.2.2.2.1.trans h1.2.2.2.2.1,
    h2.2.2.2.2.2.trans h1.2.2.2.2.2⟩

lemma processDetections_meta (C : Collaborators) (vid : String) (fps : ℚ)
    (i : ℕ) : ∀ (tds : List TrackedDet) (acc : List FrameDetection) (s : RunState),
    sameFrameMeta s (processDetections C vid fps i tds acc s).2.1 := by
  intro tds
  induction tds with
  | nil => intro acc s; exact sameFrameMeta_refl s
  | cons td rest ih =>
    intro acc s
    simp only [processDetections]
    split
    · exact ih _ _
    · split
      · exact sameFrameMeta_refl s
      · split
        · exact sameFrameMeta_refl s
        · exact sameFrameMeta_trans (sameFrameMeta_refl _) (ih _ _)

lemma processDetections_fps_zero (C : Collaborators) (vid : String) (i : ℕ) :
    ∀ (tds : List TrackedDet) (acc acc' : List FrameDetection) (s s' : RunState)
      (err : Option String),
    processDetections C vid 0 i tds acc s = (acc', s', err) →
    s' = s ∧ (err = some "ZeroDivisionError: float division by zero" ∨ err = none) := by
  intro tds
  induction tds with
  | nil =>
    intro acc acc' s s' err h
    simp only [processDetections, Prod.mk.injEq] at h
    exact ⟨h.2.1.symm, Or.inr h.2.2.symm⟩
  | cons td rest ih =>
    intro acc acc' s s' err h
    simp only [processDetections] at h
    split at h
    · exact ih _ _ _ _ _ h
    · have hts : timestampMs i 0 = .error "ZeroDivisionError: float division by zero" := by
        simp [timestampMs]
      rw [hts] at h
      simp only [Prod.mk.injEq] at h
      exact ⟨h.2.1.symm, Or.inl h.2.2.symm⟩

lemma stepFrame_fps_zero (C : Collaborators) (vid : String) (total : ℕ)
    (s : RunState) (dets : List Detection) (h : C.detect 0 = .ok dets) :
    (stepFrame C vid 0 total 0 s).2 =
      some "ZeroDivisionError: float division by zero" ∧
    (stepFrame C vid 0 total 0 s).1.logs = s.logs := by
  have h0 : (0 : ℤ) % sampleRate 0 = 0 := Int.zero_emod _
  unfold stepFrame
  simp only [Nat.cast_zero]
  rw [if_pos h0]
  split
  · next e heq => rw [h] at heq; cases heq
  · next dets2 heq =>
      rw [h] at heq
      injection heq with hd
      subst hd
      split
      · next fst s2 e heq2 =>
          obtain ⟨hs, herr⟩ := processDetections_fps_zero C vid 0 _ _ _ _ _ _ heq2
          rcases herr with he | he
          · simp only [Option.some.injEq] at he
            subst he
            subst hs
            exact ⟨rfl, rfl⟩
          · cases he
      · next frameDets s2 heq2 =>
          obtain ⟨hs, _⟩ := processDetections_fps_zero C vid 0 _ _ _ _ _ _ heq2
          have hts : timestampMs 0 (0 : ℚ) =
              .error "ZeroDivisionError: float division by zero" := by
            simp [timestampMs]
          rw [hts]
          subst hs
          exact ⟨rfl, rfl⟩

/-! ## C10: zero-fps partiality -/

/-- C10: on an opened source reporting `fps = 0` with at least one readable
frame and a detector that returns normally on frame 0, the timestamp
computation `int((frame_num / fps) * 1000)` raises `ZeroDivisionError` on
the first analyzed frame, `process_video` propagates it, and the job
transitions to `failed`. -/
theorem zero_fps_divzero (C : Collaborators) (src : VideoSource) (vid : String)
    (reg : List (String × JobStatus)) (store : List (String × TrackingArtifact))
    (dets : List Detection)
    (hop : src.opened = true) (hfps : src.fps = 0) (hn : 1 ≤ src.numFrames)
    (hdet : C.detect 0 = .ok dets) :
    (runVideo C src vid).2 = some "ZeroDivisionError: float division by zero" ∧
    lookupKey vid (processVideoTask reg store C src vid).1 =
      some ⟨"failed", 0,
        "Processing failed: " ++ "ZeroDivisionError: float division by zero",
        (initState vid).logs⟩ := by
  have heff : effFps src = 0 := by simp [effFps, hop, hfps]
  have hnum : effNumFrames src = src.numFrames := by simp [effNumFrames, hop]
  obtain ⟨k, hk⟩ : ∃ k, src.numFrames = k + 1 := ⟨src.numFrames - 1, by omega⟩
  have hsf := stepFrame_fps_zero C vid (effTotalFrames src) (initState vid) dets hdet
  have hrv : (runVideo C src vid).2 =
        some "ZeroDivisionError: float division by zero" ∧
      (runVideo C src vid).1.logs = (initState vid).logs := by
    unfold runVideo
    rw [heff, hnum, hk, List.range_succ_eq_map]
    simp only [runLoop]
    rcases hsf2 : stepFrame C vid 0 (effTotalFrames src) 0 (initState vid)
      with ⟨s1, err⟩
    rw [hsf2] at hsf
    simp only at hsf
    rw [hsf.1]
    exact ⟨rfl, hsf.2⟩
  refine ⟨hrv.1, ?_⟩
  unfold processVideoTask
  rcases hr : runVideo C src vid with ⟨s1, err⟩
  rw [hr] at hrv
  simp only at hrv
  rw [hrv.1]
  simp only [lookupKey_upsert_self, Option.some.injEq]
  rw [hrv.2]

/-- Witness for C10: fps-0 source with one frame and an empty detector. -/
theorem zero_fps_divzero_witness :
    (runVideo ⟨fun _ => .ok [], fun _ _ => .ok "m", fun _ => .ok []⟩
        ⟨true, 0, 1, 1⟩ "v").2 =
      some "ZeroDivisionError: float division by zero" ∧
    lookupKey "v" (processVideoTask [] []
        ⟨fun _ => .ok [], fun _ _ => .ok "m", fun _ => .ok []⟩
        ⟨true, 0, 1, 1⟩ "v").1 =
      some ⟨"failed", 0,
        "Processing failed: " ++ "ZeroDivisionError: float division by zero",
        (initState "v").logs⟩ :=
  zero_fps_divzero ⟨fun _ => .ok [], fun _ _ => .ok "m", fun _ => .ok []⟩
    ⟨true, 0, 1, 1⟩ "v" [] [] [] rfl rfl (by norm_num) rfl

/-! ## C3: video-open failure -/

/-- Amended C3: `cv2.VideoCapture` does not raise on open failure; when the
source fails to open, `isOpened()` is false, the frame loop runs zero
times, and the job completes with status `completed`, progress 100, while
an empty tracking artifact (fps 0, total_frames 0, no tracks) is
persisted.  The job does not transition to `failed`. -/
theorem open_failure_completes (C : Collaborators) (src : VideoSource)
    (vid : String) (reg : List (String × JobStatus))
    (store : List (String × TrackingArtifact)) (h : src.opened = false) :
    runVideo C src vid = (initState vid, none) ∧
    processVideoTask reg store C src vid =
      (upsert vid ⟨"completed", 100, "Video processing completed successfully",
        (initState vid).logs⟩ reg,
       upsert vid ⟨vid, 0, 0, [], []⟩ store) := by
  have hrv : runVideo C src vid = (initState vid, none) := by
    unfold runVideo
    rw [show effNumFrames src = 0 by simp [effNumFrames, h]]
    rfl
  refine ⟨hrv, ?_⟩
  unfold processVideoTask
  rw [hrv]
  simp only [mkArtifact, effFps, effTotalFrames, h]
  rfl

/-- Witness for C3's amended statement at a concrete unopened source. -/
theorem open_failure_completes_witness :
    runVideo ⟨fun _ => .ok [], fun _ _ => .ok "m", fun _ => .ok []⟩
        ⟨false, 0, 0, 0⟩ "v" = (initState "v", none) ∧
    processVideoTask [] [] ⟨fun _ => .ok [], fun _ _ => .ok "m", fun _ => .ok []⟩
        ⟨false, 0, 0, 0⟩ "v" =
      (upsert "v" ⟨"completed", 100, "Video processing completed successfully",
        (initState "v").logs⟩ [],
       upsert "v" ⟨"v", 0, 0, [], []⟩ []) :=
  open_failure_completes ⟨fun _ => .ok [], fun _ _ => .ok "m", fun _ => .ok []⟩
    ⟨false, 0, 0, 0⟩ "v" [] [] rfl

/-- Counterexample to C3 as stated: for a source that fails to open, the
job record ends `completed` (not `failed`) and a tracking artifact *is*
persisted for the run. -/
theorem open_failure_claim_false :
    lookupKey "v" (processVideoTask [] []
        ⟨fun _ => .ok [], fun _ _ => .ok "m", fun _ => .ok []⟩
        ⟨false, 0, 0, 0⟩ "v").1 =
      some ⟨"completed", 100, "Video processing completed successfully",
        (initState "v").logs⟩ ∧
    hasKey "v" (processVideoTask [] []
        ⟨fun _ => .ok [], fun _ _ => .ok "m", fun _ => .ok []⟩
        ⟨false, 0, 0, 0⟩ "v").2 = true := by
  constructor
  · rfl
  · rfl

lemma processTrackedObject_seg_fail (C : Collaborators) (i : ℕ) (vid : String)
    (d : Detection) (tid : ℕ) (ps : List Product)
    (hseg : ∀ bb, ∃ e, C.segment i bb = .error e)
    (hsearch : C.search d.label = .ok ps) :
    ∀ ts : ℤ, processTrackedObject C i vid d tid ts =
      .ok ⟨tid, d.label, "owlvit", none, ps.head?⟩ := by
  intro ts
  obtain ⟨e, he⟩ := hseg d.bbox
  unfold processTrackedObject
  simp only [he, hsearch]
  rfl

lemma mem_upsert {α β : Type} [DecidableEq α] (k : α) (v : β)
    (l : List (α × β)) (kv : α × β) (h : kv ∈ upsert k v l) :
    kv = (k, v) ∨ kv ∈ l := by
  induction l with
  | nil => simp [upsert] at h; exact Or.inl h
  | cons kv2 rest ih =>
    simp only [upsert] at h
    split at h
    · rcases List.mem_cons.1 h with h2 | h2
      · exact Or.inl h2
      · exact Or.inr (List.mem_cons_of_mem _ h2)
    · rcases List.mem_cons.1 h with h2 | h2
      · exact Or.inr (h2 ▸ List.mem_cons_self _ _)
      · rcases ih h2 with h3 | h3
        · exact Or.inl h3
        · exact Or.inr (List.mem_cons_of_mem _ h3)

lemma processDetections_seg_fail (C : Collaborators) (vid : String) (fps : ℚ)
    (i : ℕ) (hfps : fps ≠ 0)
    (hsearch : ∀ lbl, ∃ ps, C.search lbl = .ok ps)
    (hseg : ∀ j bb, ∃ e, C.segment j bb = .error e) :
    ∀ (tds : List TrackedDet) (acc : List FrameDetection) (s : RunState),
      allDegraded s.objectProducts →
      ∃ acc' s', processDetections C vid fps i tds acc s = (acc', s', none) ∧
        allDegraded s'.objectProducts := by
  intro tds
  induction tds with
  | nil => intro acc s hdeg; exact ⟨acc, s, rfl, hdeg⟩
  | cons td rest ih =>
    intro acc s hdeg
    simp only [processDetections]
    split
    · exact ih _ _ hdeg
    · obtain ⟨ps, hps⟩ := hsearch td.det.label
      simp only [show timestampMs i fps = .ok (pyInt ((i : ℚ) / fps * 1000)) from
        if_neg hfps,
        processTrackedObject_seg_fail C i vid td.det td.track_id ps (hseg i) hps]
      apply ih
      intro kv hkv
      rcases mem_upsert _ _ _ _ hkv with h2 | h2
      · rw [h2]
        exact ⟨rfl, rfl⟩
      · exact hdeg kv h2

lemma stepFrame_seg_fail (C : Collaborators) (vid : String) (fps : ℚ)
    (total : ℕ) (i : ℕ) (s : RunState) (hfps : fps ≠ 0) (htot : total ≠ 0)
    (hdet : ∀ j, ∃ d, C.detect j = .ok d)
    (hsearch : ∀ lbl, ∃ ps, C.search lbl = .ok ps)
    (hseg : ∀ j bb, ∃ e, C.segment j bb = .error e)
    (hdeg : allDegraded s.objectProducts) :
    ∃ s', stepFrame C vid fps total i s = (s', none) ∧
      allDegraded s'.objectProducts := by
  unfold stepFrame
  by_cases han : (i : ℤ) % sampleRate fps = 0
  · rw [if_pos han]
    obtain ⟨dets, hdets⟩ := hdet i
    split
    · next e heq => rw [hdets] at heq; cases heq
    · next dets2 heq =>
        rw [hdets] at heq
        injection heq with h2
        subst h2
        simp only []
        obtain ⟨acc', s2, hpd, hdeg2⟩ := processDetections_seg_fail C vid fps i
          hfps hsearch hseg (assignTrackIds dets s.previous s.nextTrackId).1 []
          { s with
            nextTrackId := (assignTrackIds dets s.previous s.nextTrackId).2
            assignHistory := s.assignHistory ++
              [(i, (assignTrackIds dets s.previous s.nextTrackId).1.map (·.track_id))] }
          hdeg
        rw [hpd]
        rw [show timestampMs i fps = .ok (pyInt ((i : ℚ) / fps * 1000)) from
          if_neg hfps]
        rw [show progressOf i total = .ok ((i : ℚ) / (total : ℚ) * 100) from
          if_neg htot]
        exact ⟨_, rfl, hdeg2⟩
  · rw [if_neg han]
    exact ⟨s, rfl, hdeg⟩

lemma runLoop_seg_fail (C : Collaborators) (vid : String) (fps : ℚ)
    (total : ℕ) (hfps : fps ≠ 0) (htot : total ≠ 0)
    (hdet : ∀ j, ∃ d, C.detect j = .ok d)
    (hsearch : ∀ lbl, ∃ ps, C.search lbl = .ok ps)
    (hseg : ∀ j bb, ∃ e, C.segment j bb = .error e) :
    ∀ (l : List ℕ) (s : RunState), allDegraded s.objectProducts →
      ∃ s', runLoop C vid fps total l s = (s', none) ∧
        allDegraded s'.objectProducts := by
  intro l
  induction l with
  | nil => intro s hdeg; exact ⟨s, rfl, hdeg⟩
  | cons i rest ih =>
    intro s hdeg
    obtain ⟨s1, hsf, hdeg1⟩ := stepFrame_seg_fail C vid fps total i s hfps htot
      hdet hsearch hseg hdeg
    simp only [runLoop, hsf]
    exact ih s1 hdeg1

lemma detector_failure_fails (C : Collaborators) (src : VideoSource)
    (vid : String) (reg : List (String × JobStatus))
    (store : List (String × TrackingArtifact)) (e : String)
    (hop : src.opened = true) (hn : 1 ≤ src.numFrames)
    (hdet : C.detect 0 = .error e) :
    (runVideo C src vid).2 = some e ∧
    lookupKey vid (processVideoTask reg store C src vid).1 =
      some ⟨"failed", 0, "Processing failed: " ++ e, (initState vid).logs⟩ := by
  have hnum : effNumFrames src = src.numFrames := by simp [effNumFrames, hop]
  obtain ⟨k, hk⟩ : ∃ k, src.numFrames = k + 1 := ⟨src.numFrames - 1, by omega⟩
  have hsf : stepFrame C vid (effFps src) (effTotalFrames src) 0 (initState vid) =
      (initState vid, some e) := by
    unfold stepFrame
    simp only [Nat.cast_zero]
    rw [if_pos (Int.zero_emod _), hdet]
  have hrv : runVideo C src vid = (initState vid, some e) := by
    unfold runVideo
    rw [hnum, hk, List.range_succ_eq_map]
    simp only [runLoop, hsf]
  refine ⟨by rw [hrv], ?_⟩
  unfold processVideoTask
  rw [hrv]
  simp only [lookupKey_upsert_self]

lemma processTrackedObject_search_fail (C : Collaborators) (i : ℕ)
    (vid : String) (d : Detection) (tid : ℕ) (e : String)
    (hsearch : C.search d.label = .error e) :
    ∀ ts : ℤ, processTrackedObject C i vid d tid ts = .error e := by
  intro ts
  unfold processTrackedObject
  cases hs : C.segment i d.bbox with
  | error e2 => simp only [hs, hsearch]; rfl
  | ok m => simp only [hs, hsearch]; rfl

lemma search_failure_fails (C : Collaborators) (src : VideoSource)
    (vid : String) (reg : List (String × JobStatus))
    (store : List (String × TrackingArtifact)) (d : Detection) (e : String)
    (hop : src.opened = true) (hn : 1 ≤ src.numFrames) (hfps : effFps src ≠ 0)
    (hdet : C.detect 0 = .ok [d]) (hsearch : C.search d.label = .error e) :
    (runVideo C src vid).2 = some e ∧
    lookupKey vid (processVideoTask reg store C src vid).1 =
      some ⟨"failed", 0, "Processing failed: " ++ e, (initState vid).logs⟩ := by
  have hnum : effNumFrames src = src.numFrames := by simp [effNumFrames, hop]
  obtain ⟨k, hk⟩ : ∃ k, src.numFrames = k + 1 := ⟨src.numFrames - 1, by omega⟩
  have hsf : (stepFrame C vid (effFps src) (effTotalFrames src) 0
        (initState vid)).2 = some e ∧
      (stepFrame C vid (effFps src) (effTotalFrames src) 0
        (initState vid)).1.logs = (initState vid).logs := by
    unfold stepFrame
    simp only [Nat.cast_zero]
    rw [if_pos (Int.zero_emod _), hdet]
    simp [initState, assignTrackIds, assignNewIds, processDetections, hasKey,
      lookupKey,
      show timestampMs 0 (effFps src) = .ok (pyInt ((0 : ℚ) / effFps src * 1000))
        from if_neg hfps,
      processTrackedObject_search_fail C 0 vid d 1 e hsearch]
  have hrv : (runVideo C src vid).2 = some e ∧
      (runVideo C src vid).1.logs = (initState vid).logs := by
    unfold runVideo
    rw [hnum, hk, List.range_succ_eq_map]
    simp only [runLoop]
    rcases hsf2 : stepFrame C vid (effFps src) (effTotalFrames src) 0
      (initState vid) with ⟨s1, err⟩
    rw [hsf2] at hsf
    simp only at hsf
    rw [hsf.1]
    exact ⟨rfl, hsf.2⟩
  refine ⟨hrv.1, ?_⟩
  unfold processVideoTask
  rcases hr : runVideo C src vid with ⟨s1, err⟩
  rw [hr] at hrv
  simp only at hrv
  rw [hrv.1]
  simp only [lookupKey_upsert_self, Option.some.injEq]
  rw [hrv.2]

/-- Amended C4: only Segmenter failures are contained.  (i) With a total
detector and product search, a run whose segmenter always raises still
completes, every stored enrichment is degraded (`owlvit`, no mask), and
the job is marked completed.  (ii) A Detector failure is uncaught: it
propagates out of the frame loop and the job transitions to `failed`.
(iii) A ProductSearch failure is re-tried once inside the fallback
handler, and when the search fails deterministically the exception
propagates and the job transitions to `failed`. -/
theorem collaborator_failure_policy
    (Ca Cb Cc : Collaborators) (srcA srcB srcC : VideoSource) (vid : String)
    (reg : List (String × JobStatus)) (store : List (String × TrackingArtifact))
    (d : Detection) (errB errC : String)
    (hdetA : ∀ j, ∃ ds, Ca.detect j = .ok ds)
    (hsearchA : ∀ lbl, ∃ ps, Ca.search lbl = .ok ps)
    (hsegA : ∀ j bb, ∃ e, Ca.segment j bb = .error e)
    (hfpsA : effFps srcA ≠ 0) (htotA : effTotalFrames srcA ≠ 0)
    (hopB : srcB.opened = true) (hnB : 1 ≤ srcB.numFrames)
    (hdetB : Cb.detect 0 = .error errB)
    (hopC : srcC.opened = true) (hnC : 1 ≤ srcC.numFrames)
    (hfpsC : effFps srcC ≠ 0)
    (hdetC : Cc.detect 0 = .ok [d]) (hsearchC : Cc.search d.label = .error errC) :
    ((runVideo Ca srcA vid).2 = none ∧
      allDegraded (runVideo Ca srcA vid).1.objectProducts ∧
      lookupKey vid (processVideoTask reg store Ca srcA vid).1 =
        some ⟨"completed", 100, "Video processing completed successfully",
          (runVideo Ca srcA vid).1.logs⟩) ∧
    ((runVideo Cb srcB vid).2 = some errB ∧
      lookupKey vid (processVideoTask reg store Cb srcB vid).1 =
        some ⟨"failed", 0, "Processing failed: " ++ errB, (initState vid).logs⟩) ∧
    ((runVideo Cc srcC vid).2 = some errC ∧
      lookupKey vid (processVideoTask reg store Cc srcC vid).1 =
        some ⟨"failed", 0, "Processing failed: " ++ errC, (initState vid).logs⟩) := by
  refine ⟨?_, detector_failure_fails Cb srcB vid reg store errB hopB hnB hdetB,
    search_failure_fails Cc srcC vid reg store d errC hopC hnC hfpsC hdetC hsearchC⟩
  obtain ⟨s', hrl, hdeg⟩ := runLoop_seg_fail Ca vid (effFps srcA)
    (effTotalFrames srcA) hfpsA htotA hdetA hsearchA hsegA
    (List.range (effNumFrames srcA)) (initState vid)
    (fun kv hkv => absurd hkv (List.not_mem_nil kv))
  have hrv : runVideo Ca srcA vid = (s', none) := hrl
  refine ⟨by rw [hrv], by rw [hrv]; exact hdeg, ?_⟩
  unfold processVideoTask
  rw [hrv]
  simp only [lookupKey_upsert_self]

/-- Counterexample to C4 as stated: a Detector failure is not caught — it
moves the job to `failed`. -/
theorem collaborator_failure_claim_false :
    lookupKey "v" (processVideoTask [] []
        ⟨fun _ => .error "detector down", fun _ _ => .ok "m", fun _ => .ok []⟩
        ⟨true, 10, 1, 1⟩ "v").1 =
      some ⟨"failed", 0, "Processing failed: " ++ "detector down",
        (initState "v").logs⟩ :=
  (detector_failure_fails
    ⟨fun _ => .error "detector down", fun _ _ => .ok "m", fun _ => .ok []⟩
    ⟨true, 10, 1, 1⟩ "v" [] [] "detector down" rfl (by norm_num) rfl).2

/-- Witness for amended C4 at three concrete collaborator/source setups. -/
theorem collaborator_failure_policy_witness :
    ((runVideo ⟨fun _ => .ok [], fun _ _ => .error "seg down", fun _ => .ok []⟩
        ⟨true, 10, 1, 1⟩ "v").2 = none ∧
      allDegraded (runVideo
        ⟨fun _ => .ok [], fun _ _ => .error "seg down", fun _ => .ok []⟩
        ⟨true, 10, 1, 1⟩ "v").1.objectProducts ∧
      lookupKey "v" (processVideoTask [] []
          ⟨fun _ => .ok [], fun _ _ => .error "seg down", fun _ => .ok []⟩
          ⟨true, 10, 1, 1⟩ "v").1 =
        some ⟨"completed", 100, "Video processing completed successfully",
          (runVideo ⟨fun _ => .ok [], fun _ _ => .error "seg down", fun _ => .ok []⟩
            ⟨true, 10, 1, 1⟩ "v").1.logs⟩) ∧
    ((runVideo ⟨fun _ => .error "det down", fun _ _ => .ok "m", fun _ => .ok []⟩
        ⟨true, 10, 1, 1⟩ "v").2 = some "det down" ∧
      lookupKey "v" (processVideoTask [] []
          ⟨fun _ => .error "det down", fun _ _ => .ok "m", fun _ => .ok []⟩
          ⟨true, 10, 1, 1⟩ "v").1 =
        some ⟨"failed", 0, "Processing failed: " ++ "det down",
          (initState "v").logs⟩) ∧
    ((runVideo ⟨fun _ => .ok [⟨⟨0, 0, 1, 1⟩, "cup", 1⟩], fun _ _ => .ok "m",
        fun _ => .error "ps down"⟩ ⟨true, 10, 1, 1⟩ "v").2 = some "ps down" ∧
      lookupKey "v" (processVideoTask [] []
          ⟨fun _ => .ok [⟨⟨0, 0, 1, 1⟩, "cup", 1⟩], fun _ _ => .ok "m",
            fun _ => .error "ps down"⟩ ⟨true, 10, 1, 1⟩ "v").1 =
        some ⟨"failed", 0, "Processing failed: " ++ "ps down",
          (initState "v").logs⟩) :=
  collaborator_failure_policy
    ⟨fun _ => .ok [], fun _ _ => .error "seg down", fun _ => .ok []⟩
    ⟨fun _ => .error "det down", fun _ _ => .ok "m", fun _ => .ok []⟩
    ⟨fun _ => .ok [⟨⟨0, 0, 1, 1⟩, "cup", 1⟩], fun _ _ => .ok "m",
      fun _ => .error "ps down"⟩
    ⟨true, 10, 1, 1⟩ ⟨true, 10, 1, 1⟩ ⟨true, 10, 1, 1⟩ "v" [] []
    ⟨⟨0, 0, 1, 1⟩, "cup", 1⟩ "det down" "ps down"
    (fun j => ⟨[], rfl⟩) (fun lbl => ⟨[], rfl⟩) (fun j bb => ⟨"seg down", rfl⟩)
    (by norm_num [effFps]) (by norm_num [effTotalFrames])
    rfl (by norm_num) rfl
    rfl (by norm_num) (by norm_num [effFps])
    rfl rfl

/-! ## C5: frame sampling policy -/

lemma stepFrame_ok_tsHistory (C : Collaborators) (vid : String) (fps : ℚ)
    (total : ℕ) (i : ℕ) (s s1 : RunState) (hfps : fps ≠ 0)
    (h : stepFrame C vid fps total i s = (s1, none)) :
    s1.tsHistory = s.tsHistory ++
      (if (i : ℤ) % sampleRate fps = 0 then
        [(i, pyInt ((i : ℚ) / fps * 1000))] else []) := by
  unfold stepFrame at h
  by_cases han : (i : ℤ) % sampleRate fps = 0
  · rw [if_pos han] at h
    rw [if_pos han]
    split at h
    · exact absurd (congrArg Prod.snd h) (by simp)
    · next dets heq =>
        simp only [] at h
        split at h
        · exact absurd (congrArg Prod.snd h) (by simp)
        · next frameDets s2 heq2 =>
            split at h
            · exact absurd (congrArg Prod.snd h) (by simp)
            · next ts heq3 =>
                rw [show timestampMs i fps =
                  Except.ok (pyInt ((i : ℚ) / fps * 1000)) from if_neg hfps] at heq3
                injection heq3 with hts
                split at h
                · exact absurd (congrArg Prod.snd h) (by simp)
                · next prog heq4 =>
                    have h1 := congrArg Prod.fst h
                    simp only [] at h1
                    rw [← h1]
                    have hmeta := processDetections_meta C vid fps i
                      (assignTrackIds dets s.previous s.nextTrackId).1 []
                      { s with
                        nextTrackId := (assignTrackIds dets s.previous s.nextTrackId).2
                        assignHistory := s.assignHistory ++
                          [(i, (assignTrackIds dets s.previous s.nextTrackId).1.map
                            (·.track_id))] }
                    rw [heq2] at hmeta
                    have hts2 : s2.tsHistory = s.tsHistory := hmeta.1
                    simp only [hts2, ← hts]
  · rw [if_neg han] at h
    rw [if_neg han]
    have h1 := congrArg Prod.fst h
    simp only [] at h1
    rw [← h1, List.append_nil]

lemma runLoop_tsHistory (C : Collaborators) (vid : String) (fps : ℚ)
    (total : ℕ) (hfps : fps ≠ 0) :
    ∀ (l : List ℕ) (s s' : RunState),
      runLoop C vid fps total l s = (s', none) →
      s'.tsHistory = s.tsHistory ++
        (l.filter (fun (i : ℕ) => decide ((i : ℤ) % sampleRate fps = 0))).map
          (fun (i : ℕ) => (i, pyInt ((i : ℚ) / fps * 1000))) := by
  intro l
  induction l with
  | nil =>
    intro s s' h
    simp only [runLoop] at h
    have h1 := congrArg Prod.fst h
    simp only [] at h1
    rw [← h1]
    simp
  | cons i rest ih =>
    intro s s' h
    simp only [runLoop] at h
    rcases hsf : stepFrame C vid fps total i s with ⟨s1, err⟩
    rw [hsf] at h
    cases err with
    | some e => exact absurd (congrArg Prod.snd h) (by simp)
    | none =>
      have hstep := stepFrame_ok_tsHistory C vid fps total i s s1 hfps hsf
      have hrest := ih s1 s' h
      rw [hrest, hstep]
      by_cases han : (i : ℤ) % sampleRate fps = 0
      · rw [if_pos han, List.filter_cons, if_pos (decide_eq_true han),
          List.map_cons, List.append_assoc, List.singleton_append]
      · rw [if_neg han, List.filter_cons, if_neg (by simp [han]),
          List.append_nil]

/-- Amended C5: the pipeline analyzes frame `i` iff
`i mod max(1, int(fps / 2)) == 0` — `int` truncation, not `round` — and the
timestamp recorded for an analyzed frame is `int(i / fps * 1000)` (again
truncation; for `fps = 0` the computation raises instead, see the zero-fps
claim): for every run that completes, the recorded (frame, timestamp)
history is exactly the truncation-based sampling of the read frames. -/
theorem sampling_policy (C : Collaborators) (src : VideoSource) (vid : String)
    (hfps : effFps src ≠ 0) (h : (runVideo C src vid).2 = none) :
    (runVideo C src vid).1.tsHistory =
      ((List.range (effNumFrames src)).filter
        (fun (i : ℕ) => decide ((i : ℤ) % sampleRate (effFps src) = 0))).map
        (fun (i : ℕ) => (i, pyInt ((i : ℚ) / effFps src * 1000))) := by
  rcases hr : runVideo C src vid with ⟨s', err⟩
  rw [hr] at h
  simp only [] at h
  subst h
  have : runLoop C vid (effFps src) (effTotalFrames src)
      (List.range (effNumFrames src)) (initState vid) = (s', none) := hr
  have h2 := runLoop_tsHistory C vid (effFps src) (effTotalFrames src) hfps
    (List.range (effNumFrames src)) (initState vid) s' this
  simpa [initState] using h2

/-- Counterexample to C5 as stated: at `fps = 3` the code's sample rate is
`max(1, int(1.5)) = 1`, so the pipeline analyzes frame 1 (its timestamp is
recorded), while the claim's `max(1, round(1.5)) = 2` says frame 1 is not
analyzed; and at `fps = 6`, frame 1, the recorded timestamp is
`int(166.67) = 166` while the claim's `round` gives 167. -/
theorem sampling_claim_false :
    (runVideo ⟨fun _ => .ok [], fun _ _ => .ok "m", fun _ => .ok []⟩
        ⟨true, 3, 2, 2⟩ "v").1.tsHistory = [(0, 0), (1, 333)] ∧
    ¬((1 : ℤ) % specSampleRate 3 = 0) ∧
    specTimestampMs 1 6 = 167 ∧ timestampMs 1 6 = .ok 166 := by
  refine ⟨?_, ?_, ?_, ?_⟩
  · have hsr : sampleRate 3 = 1 := by norm_num [sampleRate, pyInt]
    have ht0 : pyInt 0 = 0 := by norm_num [pyInt]
    have ht1 : pyInt ((1000 : ℚ) / 3) = 333 := by norm_num [pyInt]
    norm_num [runVideo, runLoop, stepFrame, initState, effFps, effTotalFrames,
      effNumFrames, hsr, ht0, ht1, timestampMs, progressOf, processDetections,
      assignTrackIds, assignNewIds, upsert, List.range_succ, hasKey, lookupKey]
  · norm_num [specSampleRate, pyRound, Int.even_iff]
  · norm_num [specTimestampMs, pyRound, Int.even_iff]
  · norm_num [timestampMs, pyInt]

/-- Witness for amended C5: a 10 fps, 2-frame run completes; its recorded
history matches the truncation-based sampling formula (only frame 0, at
timestamp 0). -/
theorem sampling_policy_witness :
    effFps ⟨true, 10, 2, 2⟩ ≠ 0 ∧
    (runVideo ⟨fun _ => .ok [], fun _ _ => .ok "m", fun _ => .ok []⟩
        ⟨true, 10, 2, 2⟩ "v").2 = none ∧
    (runVideo ⟨fun _ => .ok [], fun _ _ => .ok "m", fun _ => .ok []⟩
        ⟨true, 10, 2, 2⟩ "v").1.tsHistory =
      ((List.range (effNumFrames ⟨true, 10, 2, 2⟩)).filter
        (fun (i : ℕ) => decide ((i : ℤ) % sampleRate (effFps ⟨true, 10, 2, 2⟩) = 0))).map
        (fun (i : ℕ) => (i, pyInt ((i : ℚ) / effFps ⟨true, 10, 2, 2⟩ * 1000))) := by
  have hfps : effFps ⟨true, 10, 2, 2⟩ ≠ 0 := by norm_num [effFps]
  have hok : (runVideo ⟨fun _ => .ok [], fun _ _ => .ok "m", fun _ => .ok []⟩
      ⟨true, 10, 2, 2⟩ "v").2 = none := by
    have hsr : sampleRate 10 = 5 := by norm_num [sampleRate, pyInt]
    have ht0 : pyInt 0 = 0 := by norm_num [pyInt]
    norm_num [runVideo, runLoop, stepFrame, initState, effFps, effTotalFrames,
      effNumFrames, hsr, ht0, timestampMs, progressOf, processDetections,
      assignTrackIds, assignNewIds, upsert, List.range_succ, hasKey, lookupKey]
  exact ⟨hfps, hok, sampling_policy _ _ "v" hfps hok⟩

lemma find?_append_left {α : Type} (p : α → Bool) (l1 l2 : List α) (x : α)
    (h : l1.find? p = some x) : (l1 ++ l2).find? p = some x := by
  induction l1 with
  | nil => simp [List.find?] at h
  | cons a l ih =>
    rw [List.cons_append]
    cases hp : p a with
    | true => simp only [List.find?, hp] at h ⊢; exact h
    | false => simp only [List.find?, hp] at h ⊢; exact ih h

lemma find?_append_none {α : Type} (p : α → Bool) (l1 l2 : List α)
    (h : l1.find? p = none) : (l1 ++ l2).find? p = l2.find? p := by
  induction l1 with
  | nil => simp
  | cons a l ih =>
    rw [List.cons_append]
    cases hp : p a with
    | true => simp [List.find?, hp] at h
    | false => simp only [List.find?, hp] at h ⊢; exact ih h

lemma appears_false_find?_none (t : ℕ) (history : List (ℕ × List ℕ))
    (h : appears t history = false) :
    history.find? (fun p => decide (t ∈ p.2)) = none := by
  induction history with
  | nil => rfl
  | cons a l ih =>
    simp only [appears, List.any_cons, Bool.or_eq_false_iff] at h
    simp only [List.find?, h.1]
    exact ih h.2

lemma processDetections_enrich (C : Collaborators) (vid : String) (fps : ℚ)
    (i : ℕ) :
    ∀ (tds : List TrackedDet) (acc acc' : List FrameDetection)
      (s s' : RunState),
    processDetections C vid fps i tds acc s = (acc', s', none) →
    s'.assignHistory = s.assignHistory ∧
    (∀ t, hasKey t s'.objectProducts =
      (hasKey t s.objectProducts || decide (t ∈ tds.map (·.track_id)))) ∧
    (∀ t, countEvents t s'.enrichEvents = countEvents t s.enrichEvents +
      (if hasKey t s.objectProducts = false ∧ t ∈ tds.map (·.track_id)
        then 1 else 0)) ∧
    (∀ e ∈ s'.enrichEvents, e ∈ s.enrichEvents ∨
      (e.1 = i ∧ e.2 ∈ tds.map (·.track_id) ∧
        hasKey e.2 s.objectProducts = false)) := by
  intro tds
  induction tds with
  | nil =>
    intro acc acc' s s' h
    simp only [processDetections, Prod.mk.injEq] at h
    obtain ⟨-, hs, -⟩ := h
    subst hs
    refine ⟨rfl, fun t => by simp, fun t => by simp, fun e he => Or.inl he⟩
  | cons td rest ih =>
    intro acc acc' s s' h
    simp only [processDetections] at h
    split at h
    · next hk =>
        obtain ⟨hah, hkey, hcount, hev⟩ := ih _ _ _ _ h
        refine ⟨hah, ?_, ?_, ?_⟩
        · intro t
          by_cases ht : t = td.track_id
          · subst ht
            simp [hkey td.track_id, hk]
          · simp [hkey t, List.mem_cons, ht]
        · intro t
          by_cases ht : t = td.track_id
          · subst ht
            simp [hcount td.track_id, hk]
          · rw [hcount t]
            congr 1
            simp [List.mem_cons, ht]
        · intro e he
          rcases hev e he with h2 | ⟨h2, h3, h4⟩
          · exact Or.inl h2
          · exact Or.inr ⟨h2, List.mem_cons_of_mem _ h3, h4⟩
    · next hk =>
        have hkf : hasKey td.track_id s.objectProducts = false :=
          Bool.not_eq_true _ ▸ Bool.of_not_eq_true hk
        split at h
        · exact absurd (congrArg (Prod.snd ∘ Prod.snd) h) (by simp)
        · next ts heq2 =>
            split at h
            · exact absurd (congrArg (Prod.snd ∘ Prod.snd) h) (by simp)
            · next info heq3 =>
                obtain ⟨hah, hkey, hcount, hev⟩ := ih _ _ _ _ h
                refine ⟨hah, ?_, ?_, ?_⟩
                · intro t
                  rw [hkey t]
                  by_cases ht : t = td.track_id
                  · subst ht
                    simp [hasKey_upsert]
                  · simp [hasKey_upsert, ht, List.mem_cons]
                · intro t
                  rw [hcount t]
                  have hsplit : countEvents t (s.enrichEvents ++ [(i, td.track_id)]) =
                      countEvents t s.enrichEvents +
                        (if td.track_id = t then 1 else 0) := by
                    unfold countEvents
                    rw [List.countP_append]
                    simp [List.countP_cons]
                  rw [show ({ s with
                        objectProducts := upsert td.track_id info s.objectProducts,
                        logs := appendLog s.logs ("Track " ++ toString td.track_id ++
                          ": " ++ td.det.label ++ " [OWL-ViT + SAM] -> " ++ info.category),
                        enrichEvents := s.enrichEvents ++ [(i, td.track_id)] } :
                      RunState).enrichEvents = s.enrichEvents ++ [(i, td.track_id)]
                    from rfl, hsplit]
                  by_cases ht : t = td.track_id
                  · subst ht
                    simp [hasKey_upsert, hkf, List.mem_cons]
                  · have hne : ¬(td.track_id = t) := fun hh => ht hh.symm
                    have hku : hasKey t (upsert td.track_id info s.objectProducts) =
                        hasKey t s.objectProducts := by
                      rw [hasKey_upsert]
                      simp [ht]
                    rw [if_neg hne, hku]
                    have hmem : (t ∈ (td :: rest).map (·.track_id)) ↔
                        (t ∈ rest.map (·.track_id)) := by
                      simp [List.mem_cons, ht]
                    by_cases hcond : hasKey t s.objectProducts = false ∧
                        t ∈ rest.map (·.track_id)
                    · rw [if_pos hcond, if_pos ⟨hcond.1, hmem.2 hcond.2⟩]
                    · rw [if_neg hcond, if_neg (fun hc => hcond ⟨hc.1, hmem.1 hc.2⟩)]
                · intro e he
                  rcases hev e he with h2 | ⟨h2, h3, h4⟩
                  · rcases List.mem_append.1 h2 with h5 | h5
                    · exact Or.inl h5
                    · have h6 : e = (i, td.track_id) := by simpa using h5
                      subst h6
                      exact Or.inr ⟨rfl, by simp, hkf⟩
                  · rw [show ({ s with
                        objectProducts := upsert td.track_id info s.objectProducts,
                        logs := appendLog s.logs ("Track " ++ toString td.track_id ++
                          ": " ++ td.det.label ++ " [OWL-ViT + SAM] -> " ++ info.category),
                        enrichEvents := s.enrichEvents ++ [(i, td.track_id)] } :
                      RunState).objectProducts = upsert td.track_id info s.objectProducts
                      from rfl, hasKey_upsert] at h4
                    simp only [Bool.or_eq_false_iff, decide_eq_false_iff_not] at h4
                    exact Or.inr ⟨h2, List.mem_cons_of_mem _ h3, h4.2⟩

lemma stepFrame_enrich (C : Collaborators) (vid : String) (fps : ℚ)
    (total : ℕ) (i : ℕ) (s s1 : RunState)
    (h : stepFrame C vid fps total i s = (s1, none)) (hinv : EnrichInv s) :
    EnrichInv s1 := by
  unfold stepFrame at h
  by_cases han : (i : ℤ) % sampleRate fps = 0
  · rw [if_pos han] at h
    split at h
    · exact absurd (congrArg Prod.snd h) (by simp)
    · next dets heq =>
        simp only [] at h
        split at h
        · exact absurd (congrArg Prod.snd h) (by simp)
        · next frameDets s2 heq2 =>
            obtain ⟨hah, hkey, hcount, hev⟩ :=
              processDetections_enrich C vid fps i _ _ _ _ _ heq2
            split at h
            · exact absurd (congrArg Prod.snd h) (by simp)
            · next ts heq3 =>
                split at h
                · exact absurd (congrArg Prod.snd h) (by simp)
                · next prog heq4 =>
                    have h1 := congrArg Prod.fst h
                    simp only [] at h1
                    subst h1
                    refine ⟨?_, ?_, ?_⟩
                    · intro t
                      show hasKey t s2.objectProducts = appears t s2.assignHistory
                      rw [hkey t, hah]
                      show (hasKey t s.objectProducts ||
                          decide (t ∈ (assignTrackIds dets s.previous
                            s.nextTrackId).1.map (·.track_id))) =
                        appears t (s.assignHistory ++
                          [(i, (assignTrackIds dets s.previous
                            s.nextTrackId).1.map (·.track_id))])
                      rw [hinv.1 t]
                      simp [appears, List.any_append]
                    · intro t
                      show countEvents t s2.enrichEvents =
                        if hasKey t s2.objectProducts = true then 1 else 0
                      rw [hcount t, hkey t]
                      show countEvents t s.enrichEvents +
                          (if hasKey t s.objectProducts = false ∧
                            t ∈ (assignTrackIds dets s.previous
                              s.nextTrackId).1.map (·.track_id) then 1 else 0) =
                        if (hasKey t s.objectProducts ||
                          decide (t ∈ (assignTrackIds dets s.previous
                            s.nextTrackId).1.map (·.track_id))) = true
                          then 1 else 0
                      rw [hinv.2.1 t]
                      by_cases hks : hasKey t s.objectProducts = true
                      · simp [hks]
                      · have hksf : hasKey t s.objectProducts = false :=
                          Bool.not_eq_true _ ▸ Bool.of_not_eq_true hks
                        by_cases hm : t ∈ (assignTrackIds dets s.previous
                            s.nextTrackId).1.map (·.track_id)
                        · simp [hksf, hm]
                        · simp [hksf, hm]
                    · intro e he
                      show firstOccur e.2 s2.assignHistory = some e.1
                      rw [hah]
                      rcases hev e he with h2 | ⟨h2, h3, h4⟩
                      · have hfo := hinv.2.2 e h2
                        unfold firstOccur at hfo ⊢
                        rcases Option.map_eq_some'.1 hfo with ⟨x, hx1, hx2⟩
                        rw [show (({ s with
                            nextTrackId := (assignTrackIds dets s.previous s.nextTrackId).2
                            assignHistory := s.assignHistory ++
                              [(i, (assignTrackIds dets s.previous s.nextTrackId).1.map
                                (·.track_id))] } : RunState)).assignHistory =
                          s.assignHistory ++
                            [(i, (assignTrackIds dets s.previous s.nextTrackId).1.map
                              (·.track_id))] from rfl]
                        rw [find?_append_left _ _ _ _ hx1]
                        simp [hx2]
                      · have happ : appears e.2 s.assignHistory = false := by
                          rw [← hinv.1 e.2]
                          exact h4
                        have hnone := appears_false_find?_none e.2 s.assignHistory happ
                        unfold firstOccur
                        rw [show (({ s with
                            nextTrackId := (assignTrackIds dets s.previous s.nextTrackId).2
                            assignHistory := s.assignHistory ++
                              [(i, (assignTrackIds dets s.previous s.nextTrackId).1.map
                                (·.track_id))] } : RunState)).assignHistory =
                          s.assignHistory ++
                            [(i, (assignTrackIds dets s.previous s.nextTrackId).1.map
                              (·.track_id))] from rfl]
                        rw [find?_append_none _ _ _ hnone]
                        simp [List.find?, h3, h2]
  · rw [if_neg han] at h
    have h1 := congrArg Prod.fst h
    simp only [] at h1
    subst h1
    exact hinv

lemma runLoop_enrich (C : Collaborators) (vid : String) (fps : ℚ) (total : ℕ) :
    ∀ (l : List ℕ) (s s' : RunState),
      runLoop C vid fps total l s = (s', none) → EnrichInv s → EnrichInv s' := by
  intro l
  induction l with
  | nil =>
    intro s s' h hinv
    simp only [runLoop] at h
    have h1 := congrArg Prod.fst h
    simp only [] at h1
    subst h1
    exact hinv
  | cons i rest ih =>
    intro s s' h hinv
    simp only [runLoop] at h
    rcases hsf : stepFrame C vid fps total i s with ⟨s1, err⟩
    rw [hsf] at h
    cases err with
    | some e => exact absurd (congrArg Prod.snd h) (by simp)
    | none => exact ih s1 s' h (stepFrame_enrich C vid fps total i s s1 hsf hinv)

/-- C2: in a run that completes, every track id appearing in the tracker's
output has its enrichment step invoked exactly once (ids never produced
are never enriched), and each recorded enrichment happened at the first
analyzed frame where its track id was produced. -/
theorem enrichment_exactly_once (C : Collaborators) (src : VideoSource)
    (vid : String) (h : (runVideo C src vid).2 = none) :
    (∀ t, countEvents t (runVideo C src vid).1.enrichEvents =
      if appears t (runVideo C src vid).1.assignHistory = true then 1 else 0) ∧
    (∀ e ∈ (runVideo C src vid).1.enrichEvents,
      firstOccur e.2 (runVideo C src vid).1.assignHistory = some e.1) := by
  rcases hr : runVideo C src vid with ⟨s', err⟩
  rw [hr] at h
  simp only [] at h
  subst h
  have hinit : EnrichInv (initState vid) :=
    ⟨fun t => rfl, fun t => rfl, fun e he => absurd he (List.not_mem_nil e)⟩
  have hfin := runLoop_enrich C vid (effFps src) (effTotalFrames src)
    (List.range (effNumFrames src)) (initState vid) s' hr hinit
  exact ⟨fun t => by rw [hfin.2.1 t, hfin.1 t], hfin.2.2⟩

/-- Witness for C2: a 10 fps single-frame run with one `cup` detection
completes; track id 1 appears in the tracker output and its enrichment is
invoked exactly once. -/
theorem enrichment_exactly_once_witness :
    (runVideo ⟨fun _ => .ok [⟨⟨0, 0, 1, 1⟩, "cup", 1⟩], fun _ _ => .ok "m",
        fun _ => .ok []⟩ ⟨true, 10, 1, 1⟩ "v").2 = none ∧
    countEvents 1 (runVideo ⟨fun _ => .ok [⟨⟨0, 0, 1, 1⟩, "cup", 1⟩],
        fun _ _ => .ok "m", fun _ => .ok []⟩ ⟨true, 10, 1, 1⟩ "v").1.enrichEvents =
      (if appears 1 (runVideo ⟨fun _ => .ok [⟨⟨0, 0, 1, 1⟩, "cup", 1⟩],
        fun _ _ => .ok "m", fun _ => .ok []⟩
          ⟨true, 10, 1, 1⟩ "v").1.assignHistory = true then 1 else 0) ∧
    countEvents 1 (runVideo ⟨fun _ => .ok [⟨⟨0, 0, 1, 1⟩, "cup", 1⟩],
        fun _ _ => .ok "m", fun _ => .ok []⟩ ⟨true, 10, 1, 1⟩ "v").1.enrichEvents = 1 := by
  have hsr : sampleRate 10 = 5 := by norm_num [sampleRate, pyInt]
  have ht0 : pyInt 0 = 0 := by norm_num [pyInt]
  have hok : (runVideo ⟨fun _ => .ok [⟨⟨0, 0, 1, 1⟩, "cup", 1⟩],
      fun _ _ => .ok "m", fun _ => .ok []⟩ ⟨true, 10, 1, 1⟩ "v").2 = none := by
    norm_num [runVideo, runLoop, stepFrame, initState, effFps, effTotalFrames,
      effNumFrames, hsr, ht0, timestampMs, progressOf, processDetections,
      processTrackedObject, bind, Except.bind, pure, Except.pure,
      assignTrackIds, assignNewIds,
      upsert, List.range_succ, hasKey, lookupKey, appendLog]
  have hcnt := (enrichment_exactly_once _ _ "v" hok).1 1
  refine ⟨hok, hcnt, ?_⟩
  rw [hcnt]
  have happ : appears 1 (runVideo ⟨fun _ => .ok [⟨⟨0, 0, 1, 1⟩, "cup", 1⟩],
      fun _ _ => .ok "m", fun _ => .ok []⟩
        ⟨true, 10, 1, 1⟩ "v").1.assignHistory = true := by
    norm_num [runVideo, runLoop, stepFrame, initState, effFps, effTotalFrames,
      effNumFrames, hsr, ht0, timestampMs, progressOf, processDetections,
      processTrackedObject, bind, Except.bind, pure, Except.pure,
      assignTrackIds, assignNewIds,
      upsert, List.range_succ, hasKey, lookupKey, appendLog, appears]
  rw [happ]
  rfl
